import Mathlib

/-!
Verification of the route-sampling collector (`src/maps_route.py`).

The Python class `MapsRoute` polls a routing API: it builds a request URL
from a base URL, a parameter dictionary and an API key (`build_url`),
extracts `resourceSets[0].resources[0].travelDurationTraffic` from the
JSON response (`parse_json` / `get_packet`), and runs a sleep-poll
collection window (`collect_data`) that appends one timestamped sample to
`self.all_data` and overwrites the pickle file on disk.

Embedding conventions:
* Parsed JSON values (Python dicts/lists/numbers/strings as returned by
  `json.loads`) are the mutual inductive `Json` / `JList` / `JFields`;
  dictionary iteration order is the field-list order.
* The network is abstracted: the parsed body that `send_request` would
  return is passed to the model as an explicit `Json` argument.
* The clock is deterministic: code between sleeps takes no time and
  `sleep(10)` advances the clock by exactly 10 time-units, matching the
  spec's "polling granularity (10 time-units)".
* `pickle.dump` / `pickle.load` are modelled by a concrete executable
  serializer `encJ` / `decode` into a token list, plus a file system
  `FS` mapping paths to file contents.
* Python exceptions (`KeyError` on the JSON path, a corrupt pickle) are
  the error results of `Err`, named after the spec's error kinds.
-/

mutual

/-- Parsed JSON value (the result of Python's `json.loads`). -/
inductive Json where
  | num (n : Int)
  | str (s : String)
  | arr (elems : JList)
  | obj (fields : JFields)

/-- List of JSON values (a Python list). -/
inductive JList where
  | nil
  | cons (head : Json) (tail : JList)

/-- Ordered fields of a JSON object (a Python dict, insertion order). -/
inductive JFields where
  | nil
  | cons (key : String) (val : Json) (tail : JFields)

end

/-- Tokens of the serialized on-disk form (model of the pickle byte stream). -/
inductive Tok where
  | tnum (n : Int)
  | tstr (s : String)
  | tkey (s : String)
  | arrS
  | arrE
  | objS
  | objE
deriving DecidableEq

mutual

/-- Serialize a JSON value to a token stream (model of `pickle.dump`). -/
def encJ : Json → List Tok
  | .num n => [Tok.tnum n]
  | .str s => [Tok.tstr s]
  | .arr xs => Tok.arrS :: encL xs
  | .obj fs => Tok.objS :: encF fs

/-- Serialize the elements of a JSON array, closed by `arrE`. -/
def encL : JList → List Tok
  | .nil => [Tok.arrE]
  | .cons j js => encJ j ++ encL js

/-- Serialize the fields of a JSON object, closed by `objE`. -/
def encF : JFields → List Tok
  | .nil => [Tok.objE]
  | .cons k v fs => Tok.tkey k :: (encJ v ++ encF fs)

end

mutual

/-- Fuel-bounded deserializer for one JSON value; returns the value and
the unconsumed rest of the stream (model of `pickle.load`). -/
def decJ : Nat → List Tok → Option (Json × List Tok)
  | fuel, t :: r =>
    match t with
    | Tok.tnum n => some (Json.num n, r)
    | Tok.tstr s => some (Json.str s, r)
    | Tok.arrS =>
      match fuel with
      | 0 => none
      | fuel + 1 =>
        match decL fuel r with
        | some (xs, r1) => some (Json.arr xs, r1)
        | none => none
    | Tok.objS =>
      match fuel with
      | 0 => none
      | fuel + 1 =>
        match decF fuel r with
        | some (fs, r1) => some (Json.obj fs, r1)
        | none => none
    | _ => none
  | _, [] => none

/-- Deserialize array elements up to the closing `arrE`. -/
def decL : Nat → List Tok → Option (JList × List Tok)
  | fuel, t :: r =>
    if t = Tok.arrE then some (JList.nil, r)
    else
      match fuel with
      | 0 => none
      | fuel + 1 =>
        match decJ fuel (t :: r) with
        | some (j, r1) =>
          match decL fuel r1 with
          | some (js, r2) => some (JList.cons j js, r2)
          | none => none
        | none => none
  | _, [] => none

/-- Deserialize object fields up to the closing `objE`. -/
def decF : Nat → List Tok → Option (JFields × List Tok)
  | fuel, t :: r =>
    if t = Tok.objE then some (JFields.nil, r)
    else
      match fuel, t with
      | fuel + 1, Tok.tkey k =>
        match decJ fuel r with
        | some (v, r1) =>
          match decF fuel r1 with
          | some (fs, r2) => some (JFields.cons k v fs, r2)
          | none => none
        | none => none
      | _, _ => none
  | _, [] => none

end

mutual

/-- Nesting measure of a JSON value, used as sufficient deserializer fuel. -/
def sizeJ : Json → Nat
  | .num _ => 1
  | .str _ => 1
  | .arr xs => sizeL xs + 1
  | .obj fs => sizeF fs + 1

/-- Nesting measure of a JSON array's elements. -/
def sizeL : JList → Nat
  | .nil => 1
  | .cons j js => max (sizeJ j) (sizeL js) + 1

/-- Nesting measure of a JSON object's fields. -/
def sizeF : JFields → Nat
  | .nil => 1
  | .cons _ v fs => max (sizeJ v) (sizeF fs) + 1

end

/-- Deserialize a whole token stream into a single JSON value, requiring
the stream to be fully consumed. -/
def decode (ts : List Tok) : Option Json :=
  match decJ ts.length ts with
  | some (j, []) => some j
  | _ => none

/-- Look a key up in a JSON object's fields (Python `d[k]`, first match). -/
def JFields.find : JFields → String → Option Json
  | .nil, _ => none
  | .cons k v rest, s => if k = s then some v else JFields.find rest s

/-- Python `j[k]` on a parsed JSON value: succeeds only on an object that
has the key; anything else raises (`KeyError`/`TypeError`), modelled `none`. -/
def Json.lookupKey : Json → String → Option Json
  | .obj fs, s => fs.find s
  | _, _ => none

/-- Python `j[0]` on a parsed JSON value: the first element of an array;
anything else raises (`IndexError`/`TypeError`), modelled `none`. -/
def Json.first : Json → Option Json
  | .arr (.cons j _) => some j
  | _ => none

/-- Error kinds of the collector, as named by the spec (section 7). -/
inductive Err where
  | networkError
  | parseError
  | schemaError
  | storageError
deriving DecidableEq

/-- One recorded observation: `(timestamp, value)` as returned by
`get_packet`.  Timestamps are clock readings in abstract time-units. -/
abbrev Sample : Type := Nat × Json

/-- JSON form of the sample list, fixing how the store is serialized:
each sample is a two-element array `[timestamp, value]`. -/
def storeToJson : List Sample → JList
  | [] => JList.nil
  | (t, v) :: rest =>
      JList.cons (Json.arr (JList.cons (Json.num (Int.ofNat t))
        (JList.cons v JList.nil))) (storeToJson rest)

/-- Recover a sample from its serialized JSON form. -/
def sampleOfJson : Json → Option Sample
  | .arr (.cons (.num (Int.ofNat t)) (.cons v .nil)) => some (t, v)
  | _ => none

/-- Recover the sample list from the elements of a serialized store. -/
def jlistToStore : JList → Option (List Sample)
  | .nil => some []
  | .cons j rest =>
    match sampleOfJson j with
    | some s =>
      match jlistToStore rest with
      | some l => some (s :: l)
      | none => none
    | none => none

/-- Recover the sample list from a deserialized store value. -/
def jsonToStore : Json → Option (List Sample)
  | .arr xs => jlistToStore xs
  | _ => none

/-- Serialized on-disk form of a sample list (what `pickle.dump` writes). -/
def encStore (s : List Sample) : List Tok :=
  encJ (Json.arr (storeToJson s))

/-- Read a sample list back from a file's contents (what `pickle.load`
returns); `none` models a corrupt pickle. -/
def decStore (blob : List Tok) : Option (List Sample) :=
  (decode blob).bind jsonToStore

/-- File system: each path holds the contents of a file, if one exists. -/
def FS : Type := String → Option (List Tok)

/-- Overwrite (or create) the file at `path` (`open(path, "wb")` + dump). -/
def fsWrite (fs : FS) (path : String) (blob : List Tok) : FS :=
  fun p => if p = path then some blob else fs p

/-- The `MapsRoute` object's fields (`self.parameters`, `self.file_name`,
`self.base_url`, `self.api_key`, `self.all_data`).  Parameter dictionaries
are ordered key/value lists; a `none` value is Python's `None`. -/
structure MapsRoute where
  parameters : List (String × Option String)
  file_name : String
  base_url : String
  api_key : String
  all_data : List Sample

/-- Model of `MapsRoute.__init__`: start with an empty `all_data`; if no
file exists at `file_name`, dump the empty store there, else load the
store from the file (a file that does not deserialize to a sample list
is the spec's `StorageError`). -/
def MapsRoute.init (file_name base_url : String)
    (parameters : List (String × Option String)) (api_key : String)
    (fs : FS) : Except Err (MapsRoute × FS) :=
  match fs file_name with
  | none =>
    Except.ok ({ parameters, file_name, base_url, api_key, all_data := [] },
      fsWrite fs file_name (encStore []))
  | some blob =>
    match decStore blob with
    | some d =>
      Except.ok ({ parameters, file_name, base_url, api_key, all_data := d }, fs)
    | none => Except.error Err.storageError

/-- Model of `MapsRoute.build_url`: fold over the parameter list in
iteration order, appending `key=value&` for every parameter whose value
is not `None`, then append `key=<api_key>`.  (`str()` on the already
string-valued parameters is the identity.) -/
def build_url (mr : MapsRoute) (params : List (String × Option String)) : String :=
  (params.foldl
    (fun url p =>
      match p.2 with
      | some v => url ++ (p.1 ++ "=" ++ v ++ "&")
      | none => url)
    mr.base_url) ++ ("key=" ++ mr.api_key)

/-- Model of `MapsRoute.parse_json`: navigate the fixed path
`json["resourceSets"][0]["resources"][0]`; `none` when any step raises. -/
def parse_json (j : Json) : Option Json :=
  (j.lookupKey "resourceSets").bind fun rs =>
    rs.first.bind fun r0 =>
      (r0.lookupKey "resources").bind fun res => res.first

/-- The duration field read by `get_packet`:
`parse_json(data)["travelDurationTraffic"]`. -/
def durationOf (j : Json) : Option Json :=
  (parse_json j).bind fun r => r.lookupKey "travelDurationTraffic"

/-- Model of `MapsRoute.get_packet`: the response body the GET returned is
`response`; `timestamp` is the `datetime.now()` reading.  A missing JSON
path or duration field raises, i.e. the spec's `SchemaError`; otherwise
the packet is `(timestamp, response)` when `return_json` else
`(timestamp, duration)`. -/
def get_packet (response : Json) (timestamp : Nat) (return_json : Bool) :
    Except Err Sample :=
  match durationOf response with
  | none => Except.error Err.schemaError
  | some d => Except.ok (timestamp, if return_json then response else d)

/-- Model of the loop body of `MapsRoute.collect_data`.  State at entry of
the `while` check: `k` sleeps have happened, so the deterministic clock
reads `t0 + 10 * k`.  While `elapsed < interval`: sleep 10, then if
`elapsed >= interval` build the URL, fetch one packet, append it and dump
the store, after which the `while` check fails and the call returns.  The
result is the final `self.all_data`, the final file system, and `ok` or
the propagated exception.  `fuel` bounds the number of iterations; the
callers pass `interval`, which `collect_loop_spec` proves sufficient, and
a fuel-out returns the state unchanged. -/
def collect_loop (response : Json) (store_json : Bool) (t0 interval : Nat)
    (mr : MapsRoute) (fs : FS) : Nat → Nat → MapsRoute × FS × Except Err Unit
  | 0, _ => (mr, fs, Except.ok ())
  | fuel + 1, k =>
    if 10 * k < interval then
      if interval ≤ 10 * (k + 1) then
        let _url := build_url mr mr.parameters
        match get_packet response (t0 + 10 * (k + 1)) store_json with
        | Except.error e => (mr, fs, Except.error e)
        | Except.ok packet =>
          let all := mr.all_data ++ [packet]
          ({ mr with all_data := all },
            fsWrite fs mr.file_name (encStore all), Except.ok ())
      else collect_loop response store_json t0 interval mr fs fuel (k + 1)
    else (mr, fs, Except.ok ())

/-- Model of `MapsRoute.collect_data`: `curr_time = now()` is `t0`, then
the sleep-poll loop runs with the deterministic clock. -/
def collect_data (mr : MapsRoute) (fs : FS) (response : Json) (t0 : Nat)
    (interval : Nat) (store_json : Bool) : MapsRoute × FS × Except Err Unit :=
  collect_loop response store_json t0 interval mr fs interval 0


/-- Spec-side description of the query string (section 8): the
concatenation of `key=value&` for each entry whose value is not absent,
in the mapping's iteration order. -/
def urlParts : List (String × Option String) → String
  | [] => ""
  | (_, none) :: rest => urlParts rest
  | (k, some v) :: rest => k ++ "=" ++ v ++ "&" ++ urlParts rest

/-- Read the sample list from the file at `path`
(`pickle.load(open(path, "rb"))`); `none` when the file is absent or
does not deserialize to a sample list. -/
def loadStore (fs : FS) (path : String) : Option (List Sample) :=
  (fs path).bind decStore

/-- Invariant of claim C8: the file at the object's store path exists and
deserializes to exactly the in-memory sample sequence. -/
def storeInv (mr : MapsRoute) (fs : FS) : Prop :=
  ∃ blob, fs mr.file_name = some blob ∧ decStore blob = some mr.all_data

/-- The mocked response `{"resourceSets":[{"resources":[{"travelDurationTraffic":42}]}]}`. -/
def resp42 : Json :=
  Json.obj (JFields.cons "resourceSets"
    (Json.arr (JList.cons
      (Json.obj (JFields.cons "resources"
        (Json.arr (JList.cons
          (Json.obj (JFields.cons "travelDurationTraffic" (Json.num 42) JFields.nil))
          JList.nil))
        JFields.nil))
      JList.nil))
    JFields.nil)

/-- A response with no `resourceSets` key at all. -/
def respBad : Json := Json.obj JFields.nil

/-- An empty file system: no file exists at any path. -/
def fsEmpty : FS := fun _ => none

/-- A concrete collector object with an empty store. -/
def mrW : MapsRoute :=
  { parameters := [("distanceUnit", some "mi")], file_name := "maps_data.p",
    base_url := "http://dev.virtualearth.net/REST/v1/Routes?", api_key := "K",
    all_data := [] }

/-- A concrete collector object that already holds one sample. -/
def mrPrev : MapsRoute :=
  { parameters := [], file_name := "maps_data.p", base_url := "b?",
    api_key := "K", all_data := [(0, Json.num 7)] }

/-- Every serialized JSON value starts with a token that is not a closing
delimiter and not a field key. -/
theorem encJ_shape (j : Json) :
    ∃ t ts, encJ j = t :: ts ∧ t ≠ Tok.arrE ∧ t ≠ Tok.objE ∧ ∀ s, t ≠ Tok.tkey s := by
  cases j with
  | num n => exact ⟨Tok.tnum n, [], rfl, by simp, by simp, by simp⟩
  | str s => exact ⟨Tok.tstr s, [], rfl, by simp, by simp, by simp⟩
  | arr xs => exact ⟨Tok.arrS, encL xs, rfl, by simp, by simp, by simp⟩
  | obj fs => exact ⟨Tok.objS, encF fs, rfl, by simp, by simp, by simp⟩

/-- The nesting measure of a JSON value is positive. -/
theorem sizeJ_pos (j : Json) : 1 ≤ sizeJ j := by
  cases j <;> simp [sizeJ]

/-- The nesting measure of array elements is positive. -/
theorem sizeL_pos (l : JList) : 1 ≤ sizeL l := by
  cases l <;> simp [sizeL]

/-- The nesting measure of object fields is positive. -/
theorem sizeF_pos (fs : JFields) : 1 ≤ sizeF fs := by
  cases fs <;> simp [sizeF]

/-- Deserialization is a left inverse of serialization, given fuel at
least the nesting measure; the rest of the stream is untouched. -/
theorem dec_enc (fuel : Nat) :
    (∀ j r, sizeJ j ≤ fuel → decJ fuel (encJ j ++ r) = some (j, r)) ∧
    (∀ l r, sizeL l ≤ fuel → decL fuel (encL l ++ r) = some (l, r)) ∧
    (∀ fs r, sizeF fs ≤ fuel → decF fuel (encF fs ++ r) = some (fs, r)) := by
  induction fuel with
  | zero =>
    refine ⟨fun j r h => ?_, fun l r h => ?_, fun fs r h => ?_⟩
    · exact absurd h (by have := sizeJ_pos j; omega)
    · exact absurd h (by have := sizeL_pos l; omega)
    · exact absurd h (by have := sizeF_pos fs; omega)
  | succ fuel ih =>
    obtain ⟨ihJ, ihL, ihF⟩ := ih
    refine ⟨fun j r h => ?_, fun l r h => ?_, fun fs r h => ?_⟩
    · cases j with
      | num n => simp [encJ, decJ]
      | str s => simp [encJ, decJ]
      | arr xs =>
        have hx : sizeL xs ≤ fuel := by simp [sizeJ] at h; omega
        simp [encJ, decJ, ihL xs r hx]
      | obj fs1 =>
        have hx : sizeF fs1 ≤ fuel := by simp [sizeJ] at h; omega
        simp [encJ, decJ, ihF fs1 r hx]
    · cases l with
      | nil => simp [encL, decL]
      | cons j js =>
        have hj : sizeJ j ≤ fuel := by
          simp [sizeL, Nat.max_le] at h; omega
        have hjs : sizeL js ≤ fuel := by
          simp [sizeL, Nat.max_le] at h; omega
        obtain ⟨t, ts, hshape, h1, h2, h3⟩ := encJ_shape j
        have heq : encL (JList.cons j js) ++ r = t :: (ts ++ (encL js ++ r)) := by
          simp [encL, hshape]
        rw [heq]
        have hre : t :: (ts ++ (encL js ++ r)) = encJ j ++ (encL js ++ r) := by
          simp [hshape]
        simp [decL, h1, hre, ihJ j _ hj, ihL js r hjs]
    · cases fs with
      | nil => simp [encF, decF]
      | cons k v fs1 =>
        have hv : sizeJ v ≤ fuel := by
          simp [sizeF, Nat.max_le] at h; omega
        have hfs : sizeF fs1 ≤ fuel := by
          simp [sizeF, Nat.max_le] at h; omega
        have heq : encF (JFields.cons k v fs1) ++ r
            = Tok.tkey k :: (encJ v ++ (encF fs1 ++ r)) := by
          simp [encF]
        rw [heq]
        simp [decF, ihJ v _ hv, ihF fs1 r hfs]

/-- A serialized JSON value is nonempty. -/
theorem encJ_len_pos (j : Json) : 1 ≤ (encJ j).length := by
  cases j <;> simp [encJ]

/-- A serialized element list is nonempty. -/
theorem encL_len_pos (l : JList) : 1 ≤ (encL l).length := by
  cases l with
  | nil => simp [encL]
  | cons j js => have := encJ_len_pos j; simp [encL]; omega

/-- A serialized field list is nonempty. -/
theorem encF_len_pos (fs : JFields) : 1 ≤ (encF fs).length := by
  cases fs <;> simp [encF]

mutual

/-- The token count of a serialized value covers its nesting measure. -/
theorem sizeJ_le_len : ∀ j : Json, sizeJ j ≤ (encJ j).length
  | .num n => by simp [sizeJ, encJ]
  | .str s => by simp [sizeJ, encJ]
  | .arr xs => by
    have h := sizeL_le_len xs
    simp [sizeJ, encJ]; omega
  | .obj fs => by
    have h := sizeF_le_len fs
    simp [sizeJ, encJ]; omega

/-- The token count of serialized elements covers their nesting measure. -/
theorem sizeL_le_len : ∀ l : JList, sizeL l ≤ (encL l).length
  | .nil => by simp [sizeL, encL]
  | .cons j js => by
    have h1 := sizeJ_le_len j
    have h2 := sizeL_le_len js
    have h3 := encJ_len_pos j
    have h4 := encL_len_pos js
    simp [sizeL, encL]; omega

/-- The token count of serialized fields covers their nesting measure. -/
theorem sizeF_le_len : ∀ fs : JFields, sizeF fs ≤ (encF fs).length
  | .nil => by simp [sizeF, encF]
  | .cons k v fs => by
    have h1 := sizeJ_le_len v
    have h2 := sizeF_le_len fs
    have h3 := encJ_len_pos v
    have h4 := encF_len_pos fs
    simp [sizeF, encF]; omega

end

/-- Whole-stream round trip: decoding a serialized JSON value restores it. -/
theorem decode_encJ (j : Json) : decode (encJ j) = some j := by
  have h := (dec_enc (encJ j).length).1 j [] (sizeJ_le_len j)
  rw [List.append_nil] at h
  simp [decode, h]

/-- Sample lists survive the JSON serialization of the store. -/
theorem jlistToStore_storeToJson (s : List Sample) :
    jlistToStore (storeToJson s) = some s := by
  induction s with
  | nil => simp [storeToJson, jlistToStore]
  | cons p rest ih =>
    obtain ⟨t, v⟩ := p
    simp [storeToJson, jlistToStore, sampleOfJson, ih]

/-- Store round trip: reading back a dumped sample list restores it
exactly (same count, same timestamps, same values, same order). -/
theorem decStore_encStore (s : List Sample) : decStore (encStore s) = some s := by
  simp [decStore, encStore, decode_encJ, jsonToStore, jlistToStore_storeToJson]

/-- The `build_url` fold, started from any accumulator, appends exactly
the spec-side query-string parts. -/
theorem foldl_urlParts (params : List (String × Option String)) :
    ∀ acc : String,
      params.foldl
        (fun url p =>
          match p.2 with
          | some v => url ++ (p.1 ++ "=" ++ v ++ "&")
          | none => url) acc
      = acc ++ urlParts params := by
  induction params with
  | nil => intro acc; simp [urlParts]
  | cons p rest ih =>
    intro acc
    obtain ⟨k, v⟩ := p
    cases v with
    | none =>
      simp only [List.foldl_cons]
      simpa [urlParts] using ih acc
    | some s =>
      simp only [List.foldl_cons]
      rw [ih]
      simp [urlParts, String.append_assoc]

/-- All-absent parameter lists contribute nothing to the query string. -/
theorem urlParts_all_none (params : List (String × Option String))
    (h : ∀ p ∈ params, p.2 = none) : urlParts params = "" := by
  induction params with
  | nil => rfl
  | cons p rest ih =>
    obtain ⟨k, v⟩ := p
    have hv : v = none := h (k, v) (by simp)
    subst hv
    exact ih fun q hq => h q (by simp [hq])

/-- Closed form of `build_url` against the spec-side query string. -/
theorem build_url_parts (mr : MapsRoute) (params : List (String × Option String)) :
    build_url mr params = mr.base_url ++ urlParts params ++ ("key=" ++ mr.api_key) := by
  simp [build_url, foldl_urlParts]

/-- When the duration is extractable, the polling loop, entered with the
interval not yet elapsed but reachable within `fuel` sleeps, fires exactly
once: it appends one sample, timestamped at the first multiple of the
granularity at or past the interval, dumps the extended store, and returns. -/
theorem collect_loop_sample (response : Json) (b : Bool) (t0 interval : Nat)
    (mr : MapsRoute) (fs : FS) (d : Json) (hd : durationOf response = some d) :
    ∀ fuel k, 10 * k < interval → interval ≤ 10 * (k + fuel) →
    ∃ n, k < n ∧ interval ≤ 10 * n ∧
      collect_loop response b t0 interval mr fs fuel k =
        ({ mr with all_data := mr.all_data ++ [(t0 + 10 * n, if b then response else d)] },
          fsWrite fs mr.file_name
            (encStore (mr.all_data ++ [(t0 + 10 * n, if b then response else d)])),
          Except.ok ()) := by
  intro fuel
  induction fuel with
  | zero => intro k h1 h2; omega
  | succ fuel ih =>
    intro k h1 h2
    by_cases hc : interval ≤ 10 * (k + 1)
    · refine ⟨k + 1, by omega, hc, ?_⟩
      simp [collect_loop, h1, hc, get_packet, hd]
    · obtain ⟨n, hn1, hn2, hn3⟩ := ih (k + 1) (by omega) (by omega)
      refine ⟨n, by omega, hn2, ?_⟩
      simpa [collect_loop, h1, hc] using hn3

/-- When the duration is not extractable, a fired fetch propagates the
schema error and leaves the object and the disk untouched. -/
theorem collect_loop_schema_err (response : Json) (b : Bool) (t0 interval : Nat)
    (mr : MapsRoute) (fs : FS) (hd : durationOf response = none) :
    ∀ fuel k, 10 * k < interval → interval ≤ 10 * (k + fuel) →
      collect_loop response b t0 interval mr fs fuel k
        = (mr, fs, Except.error Err.schemaError) := by
  intro fuel
  induction fuel with
  | zero => intro k h1 h2; omega
  | succ fuel ih =>
    intro k h1 h2
    by_cases hc : interval ≤ 10 * (k + 1)
    · simp [collect_loop, h1, hc, get_packet, hd]
    · simpa [collect_loop, h1, hc] using ih (k + 1) (by omega) (by omega)

/-- When the duration is not extractable, the loop never changes the
object or the disk, whatever the interval and fuel. -/
theorem collect_loop_err_unchanged (response : Json) (b : Bool) (t0 interval : Nat)
    (mr : MapsRoute) (fs : FS) (hd : durationOf response = none) :
    ∀ fuel k,
      (collect_loop response b t0 interval mr fs fuel k).1 = mr ∧
      (collect_loop response b t0 interval mr fs fuel k).2.1 = fs := by
  intro fuel
  induction fuel with
  | zero => intro k; exact ⟨rfl, rfl⟩
  | succ fuel ih =>
    intro k
    by_cases h1 : 10 * k < interval
    · by_cases hc : interval ≤ 10 * (k + 1)
      · simp [collect_loop, h1, hc, get_packet, hd]
      · simpa [collect_loop, h1, hc] using ih (k + 1)
    · simp [collect_loop, h1]

/-- Every run of the polling loop either leaves the object and disk
unchanged or appends exactly one sample and dumps the extended store. -/
theorem collect_loop_outcomes (response : Json) (b : Bool) (t0 interval : Nat)
    (mr : MapsRoute) (fs : FS) :
    ∀ fuel k,
      ((collect_loop response b t0 interval mr fs fuel k).1 = mr ∧
       (collect_loop response b t0 interval mr fs fuel k).2.1 = fs) ∨
      (∃ s,
        (collect_loop response b t0 interval mr fs fuel k).1
          = { mr with all_data := mr.all_data ++ [s] } ∧
        (collect_loop response b t0 interval mr fs fuel k).2.1
          = fsWrite fs mr.file_name (encStore (mr.all_data ++ [s]))) := by
  intro fuel
  induction fuel with
  | zero => intro k; exact Or.inl ⟨rfl, rfl⟩
  | succ fuel ih =>
    intro k
    by_cases h1 : 10 * k < interval
    · by_cases hc : interval ≤ 10 * (k + 1)
      · cases hgp : get_packet response (t0 + 10 * (k + 1)) b with
        | error e => exact Or.inl (by simp [collect_loop, h1, hc, hgp])
        | ok packet =>
          exact Or.inr ⟨packet, by simp [collect_loop, h1, hc, hgp]⟩
      · simpa [collect_loop, h1, hc] using ih (k + 1)
    · exact Or.inl (by simp [collect_loop, h1])

/-- Claim C1: for every parameter mapping, `build_url` returns the base
URL followed by the concatenation of `key=value&` for each entry whose
value is not absent, in the mapping's iteration order, followed by
`key=` + apiKey with no trailing separator; every key whose value is
absent contributes nothing to the built URL. -/
theorem build_url_spec_c1 (mr : MapsRoute) (params : List (String × Option String)) :
    build_url mr params = mr.base_url ++ urlParts params ++ ("key=" ++ mr.api_key) :=
  build_url_parts mr params

/-- Claim C2: for the response
`{"resourceSets":[{"resources":[{"travelDurationTraffic":42}]}]}`,
`get_packet` with `return_json = false` returns a sample whose value is
the numeric duration 42, and with `return_json = true` a sample whose
value is the entire parsed response object. -/
theorem get_packet_values_c2 :
    (∀ t : Nat, get_packet resp42 t false = Except.ok (t, Json.num 42)) ∧
    (∀ t : Nat, get_packet resp42 t true = Except.ok (t, resp42)) :=
  ⟨fun _ => rfl, fun _ => rfl⟩

/-- Claim C3: for every response on which the fixed path
`resourceSets[0].resources[0]` is absent, the fetch fails with
`SchemaError`, no sample is appended, and neither the in-memory store
nor the persisted file changes; when the window does fire
(`0 < interval`), the whole call fails with `SchemaError`. -/
theorem fetch_fail_no_append_c3 (response : Json)
    (hmiss : parse_json response = none) :
    (∀ (t : Nat) (b : Bool), get_packet response t b = Except.error Err.schemaError) ∧
    (∀ (mr : MapsRoute) (fs : FS) (t0 interval : Nat) (b : Bool),
      (collect_data mr fs response t0 interval b).1 = mr ∧
      (collect_data mr fs response t0 interval b).2.1 = fs) ∧
    (∀ (mr : MapsRoute) (fs : FS) (t0 interval : Nat) (b : Bool), 0 < interval →
      (collect_data mr fs response t0 interval b).2.2 = Except.error Err.schemaError) := by
  have hd : durationOf response = none := by simp [durationOf, hmiss]
  refine ⟨fun t b => ?_, fun mr fs t0 interval b => ?_, fun mr fs t0 interval b hpos => ?_⟩
  · simp [get_packet, hd]
  · exact collect_loop_err_unchanged response b t0 interval mr fs hd interval 0
  · have h := collect_loop_schema_err response b t0 interval mr fs hd interval 0
      (by omega) (by omega)
    simp [collect_data, h]

/-- Witness for claim C3 at a response with no `resourceSets` key. -/
theorem fetch_fail_no_append_c3_witness :
    parse_json respBad = none ∧
    get_packet respBad 0 false = Except.error Err.schemaError ∧
    (collect_data mrW fsEmpty respBad 0 15 false).1 = mrW ∧
    (collect_data mrW fsEmpty respBad 0 15 false).2.1 = fsEmpty ∧
    (collect_data mrW fsEmpty respBad 0 15 false).2.2 = Except.error Err.schemaError :=
  ⟨rfl, (fetch_fail_no_append_c3 respBad rfl).1 0 false,
    ((fetch_fail_no_append_c3 respBad rfl).2.1 mrW fsEmpty 0 15 false).1,
    ((fetch_fail_no_append_c3 respBad rfl).2.1 mrW fsEmpty 0 15 false).2,
    (fetch_fail_no_append_c3 respBad rfl).2.2 mrW fsEmpty 0 15 false (by decide)⟩

/-- Counterexample to claim C4 as stated: called with interval 0, the
window returns at once with `ok`, having recorded no sample at all — the
store is exactly as before (here: empty), so the claimed prompt sample
never happens. -/
theorem collect_zero_never_fires_cex_c4 :
    collect_data mrW fsEmpty resp42 0 0 false = (mrW, fsEmpty, Except.ok ()) ∧
    mrW.all_data = [] :=
  ⟨rfl, rfl⟩

/-- Claim C4 as amended: calling the collection window with interval 0
returns immediately without sleeping and without recording any sample —
the `while elapsed < interval` guard fails at once, so the window never
fires. -/
theorem collect_zero_interval_c4 (mr : MapsRoute) (fs : FS) (response : Json)
    (t0 : Nat) (b : Bool) :
    collect_data mr fs response t0 0 b = (mr, fs, Except.ok ()) := rfl

/-- Claim C5: for every positive interval, one call to the collection
window (with the duration extractable from the response) performs exactly
one fetch, appends exactly one sample to the store, persists the full
extended store to disk in one write, and returns; the sample carries the
first clock reading at or past the interval. -/
theorem collect_one_sample_c5 (mr : MapsRoute) (fs : FS) (response : Json)
    (t0 interval : Nat) (b : Bool) (d : Json)
    (hpos : 0 < interval) (hd : durationOf response = some d) :
    ∃ n, 0 < n ∧ interval ≤ 10 * n ∧
      collect_data mr fs response t0 interval b =
        ({ mr with all_data := mr.all_data ++ [(t0 + 10 * n, if b then response else d)] },
          fsWrite fs mr.file_name
            (encStore (mr.all_data ++ [(t0 + 10 * n, if b then response else d)])),
          Except.ok ()) := by
  obtain ⟨n, hn1, hn2, hn3⟩ :=
    collect_loop_sample response b t0 interval mr fs d hd interval 0 (by omega) (by omega)
  exact ⟨n, hn1, hn2, hn3⟩

/-- Witness for claim C5 at interval 15 and the mocked 42-response. -/
theorem collect_one_sample_c5_witness :
    0 < 15 ∧ durationOf resp42 = some (Json.num 42) ∧
    ∃ n, 0 < n ∧ 15 ≤ 10 * n ∧
      collect_data mrW fsEmpty resp42 0 15 false =
        ({ mrW with all_data := mrW.all_data ++ [(0 + 10 * n, if false then resp42 else Json.num 42)] },
          fsWrite fsEmpty mrW.file_name
            (encStore (mrW.all_data ++ [(0 + 10 * n, if false then resp42 else Json.num 42)])),
          Except.ok ()) :=
  ⟨by decide, rfl,
    collect_one_sample_c5 mrW fsEmpty resp42 0 15 false (Json.num 42) (by decide) rfl⟩

/-- Claim C6: dumping any sample store to a path and loading from the
same path yields an equal sequence of samples — same count, same
timestamps, same values, in the same order. -/
theorem store_roundtrip_c6 (s : List Sample) (fs : FS) (path : String) :
    loadStore (fsWrite fs path (encStore s)) path = some s := by
  simp [loadStore, fsWrite, decStore_encStore]

/-- Claim C7: at construction, if no file exists at the store path, the
in-memory store comes up empty and a file holding the (serialized) empty
store is written at that path before any sampling; if a file exists, the
store is deserialized from it. -/
theorem init_spec_c7 :
    (∀ (fn bu : String) (ps : List (String × Option String)) (ak : String) (fs : FS),
      fs fn = none →
      MapsRoute.init fn bu ps ak fs =
        Except.ok
          ({ parameters := ps, file_name := fn, base_url := bu, api_key := ak,
              all_data := [] },
            fsWrite fs fn (encStore []))) ∧
    (∀ (fn bu : String) (ps : List (String × Option String)) (ak : String) (fs : FS)
        (blob : List Tok) (s : List Sample),
      fs fn = some blob → decStore blob = some s →
      MapsRoute.init fn bu ps ak fs =
        Except.ok
          ({ parameters := ps, file_name := fn, base_url := bu, api_key := ak,
              all_data := s }, fs)) ∧
    decStore (encStore []) = some [] := by
  refine ⟨fun fn bu ps ak fs h => ?_, fun fn bu ps ak fs blob s h1 h2 => ?_,
    decStore_encStore []⟩
  · simp [MapsRoute.init, h]
  · simp [MapsRoute.init, h1, h2]

/-- Witness for claim C7 on an empty file system. -/
theorem init_spec_c7_witness :
    fsEmpty "maps_data.p" = none ∧
    MapsRoute.init "maps_data.p" "b?" [] "K" fsEmpty =
      Except.ok
        ({ parameters := [], file_name := "maps_data.p", base_url := "b?",
            api_key := "K", all_data := [] },
          fsWrite fsEmpty "maps_data.p" (encStore [])) :=
  ⟨rfl, init_spec_c7.1 "maps_data.p" "b?" [] "K" fsEmpty rfl⟩

/-- Claim C8: construction establishes, and every collection call
preserves, the invariant that the file at the store path deserializes to
exactly the in-memory sample sequence — no operation leaves the disk
reflecting anything else. -/
theorem disk_matches_memory_c8 :
    (∀ (fn bu : String) (ps : List (String × Option String)) (ak : String) (fs : FS)
        (mr : MapsRoute) (fs1 : FS),
      MapsRoute.init fn bu ps ak fs = Except.ok (mr, fs1) → storeInv mr fs1) ∧
    (∀ (mr : MapsRoute) (fs : FS) (response : Json) (t0 interval : Nat) (b : Bool),
      storeInv mr fs →
      storeInv (collect_data mr fs response t0 interval b).1
        (collect_data mr fs response t0 interval b).2.1) := by
  constructor
  · intro fn bu ps ak fs mr fs1 h
    cases hfs : fs fn with
    | none =>
      simp only [MapsRoute.init, hfs, Except.ok.injEq, Prod.mk.injEq] at h
      obtain ⟨rfl, rfl⟩ := h
      exact ⟨encStore [], by simp [fsWrite], decStore_encStore []⟩
    | some blob =>
      cases hdec : decStore blob with
      | none => simp [MapsRoute.init, hfs, hdec] at h
      | some d =>
        simp only [MapsRoute.init, hfs, hdec, Except.ok.injEq, Prod.mk.injEq] at h
        obtain ⟨rfl, rfl⟩ := h
        exact ⟨blob, hfs, hdec⟩
  · intro mr fs response t0 interval b hinv
    rcases collect_loop_outcomes response b t0 interval mr fs interval 0 with ⟨h1, h2⟩ | ⟨s, h1, h2⟩
    · simp only [collect_data]
      rw [h1, h2]
      exact hinv
    · simp only [collect_data]
      rw [h1, h2]
      exact ⟨encStore (mr.all_data ++ [s]), by simp [fsWrite], decStore_encStore _⟩

/-- Witness for claim C8: the invariant holds right after constructing
against an empty file system. -/
theorem disk_matches_memory_c8_witness :
    storeInv
      { parameters := [], file_name := "maps_data.p", base_url := "b?",
        api_key := "K", all_data := [] }
      (fsWrite fsEmpty "maps_data.p" (encStore [])) :=
  disk_matches_memory_c8.1 "maps_data.p" "b?" [] "K" fsEmpty _ _ rfl

/-- Claim C9: for the empty parameter mapping, and for every mapping all
of whose values are absent, `build_url` returns exactly the base URL
immediately followed by `key=` + apiKey, with no separator contributed by
the omitted parameters. -/
theorem build_url_trivial_c9 :
    (∀ mr : MapsRoute, build_url mr [] = mr.base_url ++ ("key=" ++ mr.api_key)) ∧
    (∀ (mr : MapsRoute) (params : List (String × Option String)),
      (∀ p ∈ params, p.2 = none) →
      build_url mr params = mr.base_url ++ ("key=" ++ mr.api_key)) := by
  constructor
  · intro mr
    have h := build_url_parts mr []
    simpa [urlParts, String.append_empty] using h
  · intro mr params hall
    have h := build_url_parts mr params
    rw [urlParts_all_none params hall] at h
    simpa [String.append_empty] using h

/-- Witness for claim C9 at an all-absent two-entry mapping. -/
theorem build_url_trivial_c9_witness :
    build_url mrW [("waypoint.1", none), ("waypoint.2", none)]
      = "http://dev.virtualearth.net/REST/v1/Routes?" ++ ("key=" ++ "K") :=
  build_url_trivial_c9.2 mrW [("waypoint.1", none), ("waypoint.2", none)] (by simp)

/-- Counterexample to claim C10 as stated: a call with interval 0
completes successfully yet appends nothing — the resulting sequence is
the unchanged previous one, not the previous one with exactly one sample
appended. -/
theorem append_only_cex_c10 :
    collect_data mrPrev fsEmpty resp42 0 0 false = (mrPrev, fsEmpty, Except.ok ()) ∧
    mrPrev.all_data = [(0, Json.num 7)] :=
  ⟨rfl, rfl⟩

/-- Claim C10 as amended: a collection call never modifies, reorders or
removes existing samples: it leaves the in-memory sequence and the disk
unchanged (as when the window never fires or the fetch fails), or appends
exactly one sample at the end and persists exactly that extended
sequence; the previous sequence is always a prefix of the new one. -/
theorem append_only_c10 (mr : MapsRoute) (fs : FS) (response : Json)
    (t0 interval : Nat) (b : Bool) :
    ((collect_data mr fs response t0 interval b).1.all_data = mr.all_data ∧
     (collect_data mr fs response t0 interval b).2.1 = fs) ∨
    (∃ s,
      (collect_data mr fs response t0 interval b).1.all_data = mr.all_data ++ [s] ∧
      (collect_data mr fs response t0 interval b).2.1
        = fsWrite fs mr.file_name (encStore (mr.all_data ++ [s]))) := by
  rcases collect_loop_outcomes response b t0 interval mr fs interval 0 with ⟨h1, h2⟩ | ⟨s, h1, h2⟩
  · left
    constructor
    · simp only [collect_data]; rw [h1]
    · simp only [collect_data]; rw [h2]
  · right
    refine ⟨s, ?_, ?_⟩
    · simp only [collect_data]; rw [h1]
    · simp only [collect_data]; rw [h2]
